import Mathlib

/-!
Formal model of the in-memory todo application (src/todo_app.py).

The Python program keeps a `TaskList` holding a dict from task id to `Task`
(insertion-ordered, as Python dicts are) and a `next_id` counter starting
at 1.  We embed the dict as an insertion-ordered association list
`List (Nat × Task)`; the store operations translate the Python methods
directly, and the interactive handlers are modelled as pure functions from
the already-read input strings (Python `input(...).strip()` becomes
`pyStrip` of the given argument).
-/

/-- Python `str.strip()`: drop whitespace from both ends.  Defined on the
character list so that the kernel can evaluate it. -/
def pyStrip (s : String) : String :=
  ⟨((s.data.dropWhile Char.isWhitespace).reverse.dropWhile Char.isWhitespace).reverse⟩

namespace TodoApp

/-- A single todo task (class `Task` in the source): id, title, optional
description, completion flag. -/
structure Task where
  id : Nat
  title : String
  description : Option String
  completed : Bool
deriving Repr, DecidableEq

/-- The task store (class `TaskList`): an insertion-ordered map from id to
task (a Python dict) and the next-identifier counter. -/
structure TaskList where
  tasks : List (Nat × Task)
  next_id : Nat
deriving Repr, DecidableEq

/-- Python `task_id in self.tasks`: key membership in the dict. -/
def dictContains (d : List (Nat × Task)) (k : Nat) : Bool :=
  d.any (fun p => p.1 == k)

/-- Python `self.tasks[k] = v`: replace in place when the key is present,
append at the end otherwise (insertion-ordered dict assignment). -/
def dictInsert (d : List (Nat × Task)) (k : Nat) (v : Task) : List (Nat × Task) :=
  if dictContains d k then d.map (fun p => if p.1 = k then (p.1, v) else p)
  else d ++ [(k, v)]

/-- `TaskList.__init__`: empty dict, counter at 1. -/
def TaskList.init : TaskList := ⟨[], 1⟩

/-- `TaskList.add_task`: build a task with the current `next_id`,
`completed=False`, store it under that id, increment the counter, and
return the new task (paired here with the updated store). -/
def TaskList.add_task (st : TaskList) (title : String) (description : Option String) :
    Task × TaskList :=
  let task : Task := ⟨st.next_id, title, description, false⟩
  (task, ⟨dictInsert st.tasks st.next_id task, st.next_id + 1⟩)

/-- `TaskList.get_all_tasks`: `list(self.tasks.values())`. -/
def TaskList.get_all_tasks (st : TaskList) : List Task :=
  st.tasks.map Prod.snd

/-- `TaskList.get_task_by_id`: `self.tasks.get(task_id)`. -/
def TaskList.get_task_by_id (st : TaskList) (task_id : Nat) : Option Task :=
  (st.tasks.find? (fun p => p.1 == task_id)).map Prod.snd

/-- The two `if ... is not None` field assignments inside
`TaskList.update_task`: a `none` argument leaves the field unchanged, a
`some` argument overwrites it. -/
def applyUpd (title description : Option String) (t : Task) : Task :=
  let t1 :=
    match title with
    | some s => { t with title := s }
    | none => t
  match description with
  | some s => { t1 with description := some s }
  | none => t1

/-- In-place mutation of the task stored under key `i`: the Python methods
mutate `self.tasks[task_id]` through the object reference, which on an
association list is a map touching exactly the entry with that key. -/
def touchAt (i : Nat) (g : Task → Task) : Nat × Task → Nat × Task :=
  fun p => if p.1 = i then (p.1, g p.2) else p

/-- `TaskList.update_task`: returns `False` leaving the store untouched when
the id is absent; otherwise updates the provided fields of the stored task
in place and returns `True`. -/
def TaskList.update_task (st : TaskList) (task_id : Nat)
    (title description : Option String) : Bool × TaskList :=
  if dictContains st.tasks task_id then
    (true, ⟨st.tasks.map (touchAt task_id (applyUpd title description)), st.next_id⟩)
  else (false, st)

/-- `TaskList.delete_task`: `del self.tasks[task_id]` when present (the dict
keeps the remaining entries in order), `False` otherwise. -/
def TaskList.delete_task (st : TaskList) (task_id : Nat) : Bool × TaskList :=
  if dictContains st.tasks task_id then
    (true, ⟨st.tasks.filter (fun p => p.1 != task_id), st.next_id⟩)
  else (false, st)

/-- `TaskList.toggle_task_completion`: flip the stored task's flag in place
when present, `False` otherwise. -/
def TaskList.toggle_task_completion (st : TaskList) (task_id : Nat) : Bool × TaskList :=
  if dictContains st.tasks task_id then
    (true, ⟨st.tasks.map (touchAt task_id (fun t => { t with completed := !t.completed })),
      st.next_id⟩)
  else (false, st)

/-- The `add_task` handler (function `add_task` in the source), as a pure
function of the two raw input lines: strip the title, refuse an empty one
(no mutation), turn an empty stripped description into `None`, then call
`TaskList.add_task`. -/
def add_task_handler (st : TaskList) (titleInput descInput : String) : TaskList :=
  let title := pyStrip titleInput
  if title = "" then st
  else
    let descStr := pyStrip descInput
    let description : Option String := if descStr = "" then none else some descStr
    (st.add_task title description).2

/-- The `update_task` handler (function `update_task` in the source) after
the task id has been read and parsed, as a pure function of the two raw
replacement input lines: return unchanged when the store is empty or the id
is absent; otherwise map blank stripped inputs to `None` (including the
source's extra `if new_description == "": description = None` line) and
call `TaskList.update_task`. -/
def update_task_handler (st : TaskList) (task_id : Nat)
    (titleInput descInput : String) : TaskList :=
  if st.get_all_tasks.isEmpty then st
  else
    match st.get_task_by_id task_id with
    | none => st
    | some _ =>
      let new_title := pyStrip titleInput
      let new_description := pyStrip descInput
      let title : Option String := if new_title = "" then none else some new_title
      let description0 : Option String :=
        if new_description = "" then none else some new_description
      let description : Option String :=
        if new_description = "" then none else description0
      (st.update_task task_id title description).2

/-- One store operation, for reasoning about arbitrary operation
sequences. -/
inductive Op where
  | addOp (title : String) (description : Option String)
  | delOp (task_id : Nat)
  | toggleOp (task_id : Nat)
  | updateOp (task_id : Nat) (title description : Option String)
deriving Repr

/-- Apply one operation to the store (discarding the returned value). -/
def applyOp (st : TaskList) : Op → TaskList
  | .addOp t d => (st.add_task t d).2
  | .delOp i => (st.delete_task i).2
  | .toggleOp i => (st.toggle_task_completion i).2
  | .updateOp i t d => (st.update_task i t d).2

/-- Run a sequence of operations from a given store. -/
def runOps (st : TaskList) (ops : List Op) : TaskList :=
  ops.foldl applyOp st

/-- The identifier an operation assigns (only creation assigns one). -/
def opAssigns (st : TaskList) (op : Op) : List Nat :=
  match op with
  | .addOp _ _ => [st.next_id]
  | _ => []

/-- All identifiers assigned along a run, in creation order. -/
def assignedIds (st : TaskList) : List Op → List Nat
  | [] => []
  | op :: rest => opAssigns st op ++ assignedIds (applyOp st op) rest

/-- Every key in the dict is below the counter. -/
def keysBelow (st : TaskList) : Prop := ∀ p ∈ st.tasks, p.1 < st.next_id

/-- Every stored task carries its own key as id. -/
def keysMatch (st : TaskList) : Prop := ∀ p ∈ st.tasks, p.2.id = p.1

/-- The keys appear in strictly increasing order. -/
def keysSorted (st : TaskList) : Prop := List.Pairwise (· < ·) (st.tasks.map Prod.fst)

/-- The store invariant maintained by every operation from `TaskList.init`. -/
def Inv (st : TaskList) : Prop := keysBelow st ∧ keysMatch st ∧ keysSorted st

/-! ### Basic facts about the dict embedding -/

theorem touchAt_fst (i : Nat) (g : Task → Task) (p : Nat × Task) :
    (touchAt i g p).1 = p.1 := by
  unfold touchAt
  split <;> rfl

theorem contains_eq_true_iff (d : List (Nat × Task)) (k : Nat) :
    dictContains d k = true ↔ ∃ p ∈ d, p.1 = k := by
  simp [dictContains]

theorem contains_eq_false_iff (d : List (Nat × Task)) (k : Nat) :
    dictContains d k = false ↔ ∀ p ∈ d, p.1 ≠ k := by
  simp [dictContains]

theorem get_eq_none_iff (st : TaskList) (k : Nat) :
    st.get_task_by_id k = none ↔ dictContains st.tasks k = false := by
  simp [TaskList.get_task_by_id, contains_eq_false_iff, List.find?_eq_none]

theorem contains_of_get (st : TaskList) (i : Nat) (t : Task)
    (h : st.get_task_by_id i = some t) : dictContains st.tasks i = true := by
  obtain ⟨p, hp, -⟩ : ∃ p, st.tasks.find? (fun q => q.1 == i) = some p ∧ p.2 = t := by
    simpa [TaskList.get_task_by_id, Option.map_eq_some'] using h
  exact (contains_eq_true_iff _ _).mpr
    ⟨p, List.mem_of_find?_eq_some hp, by simpa using List.find?_some hp⟩

theorem find?_map_touchAt_ne {l : List (Nat × Task)} {i j : Nat} (g : Task → Task)
    (h : j ≠ i) :
    (l.map (touchAt i g)).find? (fun p => p.1 == j) = l.find? (fun p => p.1 == j) := by
  induction l with
  | nil => rfl
  | cons a tl ih =>
    by_cases ha : a.1 = j
    · have hne : a.1 ≠ i := by rw [ha]; exact h
      have he : touchAt i g a = a := by unfold touchAt; simp [hne]
      rw [List.map_cons, he, List.find?_cons_of_pos _ (by simp [ha]),
        List.find?_cons_of_pos _ (by simp [ha])]
    · rw [List.map_cons, List.find?_cons_of_neg _ (by simp [touchAt_fst, ha]),
        List.find?_cons_of_neg _ (by simp [ha]), ih]

theorem find?_map_touchAt_eq {l : List (Nat × Task)} {i : Nat} (g : Task → Task) :
    (l.map (touchAt i g)).find? (fun p => p.1 == i)
      = (l.find? (fun p => p.1 == i)).map (fun p => (p.1, g p.2)) := by
  induction l with
  | nil => rfl
  | cons a tl ih =>
    by_cases ha : a.1 = i
    · have he : touchAt i g a = (a.1, g a.2) := by unfold touchAt; simp [ha]
      rw [List.map_cons, he, List.find?_cons_of_pos _ (by simp [ha]),
        List.find?_cons_of_pos _ (by simp [ha])]
      rfl
    · have he : touchAt i g a = a := by unfold touchAt; simp [ha]
      rw [List.map_cons, he, List.find?_cons_of_neg _ (by simp [ha]),
        List.find?_cons_of_neg _ (by simp [ha]), ih]

theorem contains_map_touchAt (l : List (Nat × Task)) (i j : Nat) (g : Task → Task) :
    dictContains (l.map (touchAt i g)) j = dictContains l j := by
  unfold dictContains
  rw [List.any_map]
  congr 1
  funext p
  simp [Function.comp, touchAt_fst]

theorem get_touch_eq (st : TaskList) (i : Nat) (t : Task) (g : Task → Task)
    (h : st.get_task_by_id i = some t) :
    (TaskList.mk (st.tasks.map (touchAt i g)) st.next_id).get_task_by_id i = some (g t) := by
  obtain ⟨p, hp, hpt⟩ : ∃ p, st.tasks.find? (fun q => q.1 == i) = some p ∧ p.2 = t := by
    simpa [TaskList.get_task_by_id, Option.map_eq_some'] using h
  simp only [TaskList.get_task_by_id]
  rw [find?_map_touchAt_eq, hp]
  simp [hpt]

theorem get_touch_ne (st : TaskList) (i j : Nat) (g : Task → Task) (hne : j ≠ i) :
    (TaskList.mk (st.tasks.map (touchAt i g)) st.next_id).get_task_by_id j
      = st.get_task_by_id j := by
  simp only [TaskList.get_task_by_id]
  rw [find?_map_touchAt_ne g hne]

/-! ### Field computations of `applyUpd` -/

theorem applyUpd_id (a b : Option String) (t : Task) : (applyUpd a b t).id = t.id := by
  unfold applyUpd
  cases a <;> cases b <;> rfl

theorem applyUpd_completed (a b : Option String) (t : Task) :
    (applyUpd a b t).completed = t.completed := by
  unfold applyUpd
  cases a <;> cases b <;> rfl

theorem applyUpd_title (a b : Option String) (t : Task) :
    (applyUpd a b t).title = a.getD t.title := by
  unfold applyUpd
  cases a <;> cases b <;> rfl

theorem applyUpd_description (a b : Option String) (t : Task) :
    (applyUpd a b t).description = b.or t.description := by
  unfold applyUpd
  cases a <;> cases b <;> rfl

/-! ### Shape of the store after `add_task` -/

theorem add_task_tasks (st : TaskList) (h : keysBelow st) (title : String)
    (d : Option String) :
    ((st.add_task title d).2).tasks
      = st.tasks ++ [(st.next_id, ⟨st.next_id, title, d, false⟩)] := by
  have hc : dictContains st.tasks st.next_id = false :=
    (contains_eq_false_iff _ _).mpr fun p hp => Nat.ne_of_lt (h p hp)
  simp [TaskList.add_task, dictInsert, hc]

theorem get_add_self (st : TaskList) (h : keysBelow st) (title : String)
    (d : Option String) :
    (st.add_task title d).2.get_task_by_id st.next_id
      = some ⟨st.next_id, title, d, false⟩ := by
  have h1 : st.tasks.find? (fun p => p.1 == st.next_id) = none :=
    List.find?_eq_none.mpr fun p hp => by simpa using Nat.ne_of_lt (h p hp)
  simp only [TaskList.get_task_by_id, add_task_tasks st h, List.find?_append, h1]
  simp

theorem get_add_other (st : TaskList) (h : keysBelow st) (title : String)
    (d : Option String) (j : Nat) (hj : j ≠ st.next_id) :
    (st.add_task title d).2.get_task_by_id j = st.get_task_by_id j := by
  have h1 : List.find? (fun p => p.1 == j)
      [(st.next_id, (⟨st.next_id, title, d, false⟩ : Task))] = none := by
    rw [List.find?_cons_of_neg _ (by simp [Ne.symm hj])]
    rfl
  simp only [TaskList.get_task_by_id, add_task_tasks st h, List.find?_append, h1,
    Option.or_none]

/-! ### The store invariant and its preservation -/

theorem Inv_init : Inv TaskList.init := by
  refine ⟨?_, ?_, ?_⟩ <;> simp [keysBelow, keysMatch, keysSorted, TaskList.init]

theorem Inv_map_touch (st : TaskList) (i : Nat) (g : Task → Task)
    (hg : ∀ t, (g t).id = t.id) (h : Inv st) :
    Inv ⟨st.tasks.map (touchAt i g), st.next_id⟩ := by
  obtain ⟨hb, hm, hs⟩ := h
  refine ⟨?_, ?_, ?_⟩
  · intro q hq
    obtain ⟨p, hp, rfl⟩ := List.mem_map.mp hq
    rw [touchAt_fst]
    exact hb p hp
  · intro q hq
    obtain ⟨p, hp, rfl⟩ := List.mem_map.mp hq
    rw [touchAt_fst]
    unfold touchAt
    split
    · simpa [hg] using hm p hp
    · exact hm p hp
  · have : (st.tasks.map (touchAt i g)).map Prod.fst = st.tasks.map Prod.fst := by
      rw [List.map_map]
      exact List.map_congr_left fun p _ => touchAt_fst i g p
    unfold keysSorted at hs ⊢
    simpa [this] using hs

theorem Inv_applyOp (st : TaskList) (op : Op) (h : Inv st) : Inv (applyOp st op) := by
  obtain ⟨hb, hm, hs⟩ := h
  cases op with
  | addOp title d =>
    show Inv (st.add_task title d).2
    have ht := add_task_tasks st hb title d
    refine ⟨?_, ?_, ?_⟩
    · intro p hp
      rw [show (st.add_task title d).2.next_id = st.next_id + 1 from rfl]
      rw [ht] at hp
      rcases List.mem_append.mp hp with hp | hp
      · exact Nat.lt_succ_of_lt (hb p hp)
      · simp at hp
        simp [hp]
    · intro p hp
      rw [ht] at hp
      rcases List.mem_append.mp hp with hp | hp
      · exact hm p hp
      · simp at hp
        simp [hp]
    · unfold keysSorted
      rw [ht, List.map_append, List.pairwise_append]
      refine ⟨hs, by simp, ?_⟩
      intro a ha b hbb
      simp at hbb
      obtain ⟨p, hp, rfl⟩ := List.mem_map.mp ha
      rw [hbb]
      exact hb p hp
  | delOp i =>
    show Inv (st.delete_task i).2
    unfold TaskList.delete_task
    split
    · refine ⟨?_, ?_, ?_⟩
      · intro p hp
        exact hb p (List.mem_filter.mp hp).1
      · intro p hp
        exact hm p (List.mem_filter.mp hp).1
      · exact List.Pairwise.sublist ((List.filter_sublist st.tasks).map Prod.fst) hs
    · exact ⟨hb, hm, hs⟩
  | toggleOp i =>
    show Inv (st.toggle_task_completion i).2
    unfold TaskList.toggle_task_completion
    split
    · exact Inv_map_touch st i _ (fun t => rfl) ⟨hb, hm, hs⟩
    · exact ⟨hb, hm, hs⟩
  | updateOp i a b =>
    show Inv (st.update_task i a b).2
    unfold TaskList.update_task
    split
    · exact Inv_map_touch st i _ (applyUpd_id a b) ⟨hb, hm, hs⟩
    · exact ⟨hb, hm, hs⟩

theorem runOps_cons (st : TaskList) (op : Op) (rest : List Op) :
    runOps st (op :: rest) = runOps (applyOp st op) rest := rfl

theorem Inv_runOps (ops : List Op) : Inv (runOps TaskList.init ops) := by
  suffices h : ∀ st, Inv st → Inv (runOps st ops) from h _ Inv_init
  induction ops with
  | nil => exact fun st h => h
  | cons op rest ih => exact fun st h => ih _ (Inv_applyOp st op h)

/-! ### The counter never moves backwards, assigned ids are never reissued -/

theorem applyOp_next_id_le (st : TaskList) (op : Op) :
    st.next_id ≤ (applyOp st op).next_id := by
  cases op with
  | addOp title d => exact Nat.le_succ _
  | delOp i =>
    show st.next_id ≤ (st.delete_task i).2.next_id
    unfold TaskList.delete_task
    split <;> exact Nat.le_refl _
  | toggleOp i =>
    show st.next_id ≤ (st.toggle_task_completion i).2.next_id
    unfold TaskList.toggle_task_completion
    split <;> exact Nat.le_refl _
  | updateOp i a b =>
    show st.next_id ≤ (st.update_task i a b).2.next_id
    unfold TaskList.update_task
    split <;> exact Nat.le_refl _

theorem runOps_next_id_le (st : TaskList) (ops : List Op) :
    st.next_id ≤ (runOps st ops).next_id := by
  induction ops generalizing st with
  | nil => exact Nat.le_refl _
  | cons op rest ih =>
    exact Nat.le_trans (applyOp_next_id_le st op) (ih (applyOp st op))

theorem assignedIds_lt_next (st : TaskList) (ops : List Op) :
    ∀ k ∈ assignedIds st ops, k < (runOps st ops).next_id := by
  induction ops generalizing st with
  | nil => intro k hk; simp [assignedIds] at hk
  | cons op rest ih =>
    intro k hk
    rw [runOps_cons]
    rcases List.mem_append.mp hk with hk | hk
    · cases op with
      | addOp title d =>
        simp [opAssigns] at hk
        subst hk
        exact Nat.lt_of_lt_of_le (Nat.lt_succ_self _)
          (runOps_next_id_le ((st.add_task title d).2) rest)
      | delOp i => simp [opAssigns] at hk
      | toggleOp i => simp [opAssigns] at hk
      | updateOp i a b => simp [opAssigns] at hk
    · exact ih (applyOp st op) k hk

theorem assignedIds_adds (st : TaskList) (inputs : List (String × Option String)) :
    assignedIds st (inputs.map fun q => Op.addOp q.1 q.2)
      = List.range' st.next_id inputs.length := by
  induction inputs generalizing st with
  | nil => rfl
  | cons a rest ih =>
    show st.next_id :: assignedIds ((st.add_task a.1 a.2).2) (rest.map fun q => Op.addOp q.1 q.2)
      = List.range' st.next_id (rest.length + 1)
    rw [List.range'_succ, ih ((st.add_task a.1 a.2).2)]
    rfl

/-! ### Operation-level lookup lemmas -/

theorem map_eq_self {l : List (Nat × Task)} {f : Nat × Task → Nat × Task}
    (h : ∀ p ∈ l, f p = p) : l.map f = l := by
  induction l with
  | nil => rfl
  | cons a tl ih =>
    rw [List.map_cons, h a (List.mem_cons_self a tl),
      ih fun p hp => h p (List.mem_cons_of_mem a hp)]

theorem update_task_get_eq (st : TaskList) (i : Nat) (t : Task) (a b : Option String)
    (h : st.get_task_by_id i = some t) :
    (st.update_task i a b).2.get_task_by_id i = some (applyUpd a b t) := by
  have hc := contains_of_get st i t h
  unfold TaskList.update_task
  rw [if_pos hc]
  exact get_touch_eq st i t _ h

theorem update_task_get_ne (st : TaskList) (i j : Nat) (a b : Option String)
    (hne : j ≠ i) :
    (st.update_task i a b).2.get_task_by_id j = st.get_task_by_id j := by
  unfold TaskList.update_task
  split
  · exact get_touch_ne st i j _ hne
  · rfl

theorem toggle_get_eq (st : TaskList) (i : Nat) (t : Task)
    (h : st.get_task_by_id i = some t) :
    (st.toggle_task_completion i).2.get_task_by_id i
      = some { t with completed := !t.completed } := by
  have hc := contains_of_get st i t h
  unfold TaskList.toggle_task_completion
  rw [if_pos hc]
  exact get_touch_eq st i t _ h

/-! ### The claims -/

/-- Claim C1: the claim states that in the Update handler a blank
description input clears the stored description to absent, while a blank
title input keeps the title.  The code does not clear: on the store holding
task 1 with title "T" and description "x", the handler given blank title
input and blank description input leaves the task, description included,
exactly as it was.  The handler maps blank input to `None`, but `None` is
`TaskList.update_task`'s leave-unchanged marker, so the clearing the
source's comment announces never happens. -/
theorem C1_blank_description_not_cleared :
    (update_task_handler (TaskList.init.add_task "T" (some "x")).2 1 "" "").get_task_by_id 1
      = some ⟨1, "T", some "x", false⟩ := by
  decide

/-- Claim C2: identifiers are never reused.  Creating `N` tasks from the
initial store assigns exactly the identifiers `1, …, N` in creation order
(`List.range' 1 N`), and after an arbitrary operation sequence the next
creation receives the current counter value, which is distinct from every
identifier assigned at any point of the run. -/
theorem C2_identifiers_never_reused :
    (∀ inputs : List (String × Option String),
        assignedIds TaskList.init (inputs.map fun q => Op.addOp q.1 q.2)
          = List.range' 1 inputs.length) ∧
    (∀ ops : List Op, ∀ title : String, ∀ d : Option String,
        ((runOps TaskList.init ops).add_task title d).1.id
            = (runOps TaskList.init ops).next_id ∧
        ((runOps TaskList.init ops).add_task title d).1.id
            ∉ assignedIds TaskList.init ops) := by
  constructor
  · exact fun inputs => assignedIds_adds TaskList.init inputs
  · intro ops title d
    refine ⟨rfl, fun hmem => ?_⟩
    exact Nat.lt_irrefl _ (assignedIds_lt_next TaskList.init ops _ hmem)

/-- Claim C3: for an identifier absent from the store, `delete_task`,
`toggle_task_completion` and `update_task` all return `False` and return
the store completely unchanged (task map and counter alike): no partial
mutation happens before the failure. -/
theorem C3_not_found_no_mutation (st : TaskList) (i : Nat)
    (h : st.get_task_by_id i = none) :
    st.delete_task i = (false, st) ∧
    st.toggle_task_completion i = (false, st) ∧
    ∀ a b : Option String, st.update_task i a b = (false, st) := by
  have hc : dictContains st.tasks i = false := (get_eq_none_iff st i).mp h
  refine ⟨?_, ?_, fun a b => ?_⟩ <;>
    simp [TaskList.delete_task, TaskList.toggle_task_completion, TaskList.update_task, hc]

theorem C3_witness :
    ((TaskList.init.add_task "A" none).2.delete_task 5
        = (false, (TaskList.init.add_task "A" none).2)) ∧
    ((TaskList.init.add_task "A" none).2.toggle_task_completion 5
        = (false, (TaskList.init.add_task "A" none).2)) ∧
    ((TaskList.init.add_task "A" none).2.update_task 5 (some "B") (some "c")
        = (false, (TaskList.init.add_task "A" none).2)) := by
  have h := C3_not_found_no_mutation (TaskList.init.add_task "A" none).2 5 (by decide)
  exact ⟨h.1, h.2.1, h.2.2 (some "B") (some "c")⟩

/-- Claim C4: toggling is an involution.  For a task present in the store,
the first toggle flips its completion flag and the second toggle restores
the task exactly, flag included. -/
theorem C4_toggle_involution (st : TaskList) (i : Nat) (t : Task)
    (h : st.get_task_by_id i = some t) :
    (st.toggle_task_completion i).2.get_task_by_id i
        = some { t with completed := !t.completed } ∧
    ((st.toggle_task_completion i).2.toggle_task_completion i).2.get_task_by_id i
        = some t := by
  have h1 := toggle_get_eq st i t h
  have h2 := toggle_get_eq (st.toggle_task_completion i).2 i _ h1
  refine ⟨h1, ?_⟩
  simpa [Bool.not_not] using h2

theorem C4_witness :
    ((TaskList.init.add_task "A" none).2.toggle_task_completion 1).2.get_task_by_id 1
        = some ⟨1, "A", none, true⟩ ∧
    (((TaskList.init.add_task "A" none).2.toggle_task_completion 1).2.toggle_task_completion
          1).2.get_task_by_id 1
        = some ⟨1, "A", none, false⟩ :=
  C4_toggle_involution (TaskList.init.add_task "A" none).2 1 ⟨1, "A", none, false⟩ (by decide)

/-- Claim C5: updating only the title replaces the title and leaves the
description and the completion flag unchanged; updating only the
description replaces the description and leaves the title and the
completion flag unchanged. -/
theorem C5_update_frame (st : TaskList) (i : Nat) (t : Task) (s d : String)
    (h : st.get_task_by_id i = some t) :
    (st.update_task i (some s) none).2.get_task_by_id i = some { t with title := s } ∧
    (st.update_task i none (some d)).2.get_task_by_id i
      = some { t with description := some d } :=
  ⟨update_task_get_eq st i t (some s) none h, update_task_get_eq st i t none (some d) h⟩

theorem C5_witness :
    ((TaskList.init.add_task "A" (some "d")).2.update_task 1 (some "B") none).2.get_task_by_id 1
        = some ⟨1, "B", some "d", false⟩ ∧
    ((TaskList.init.add_task "A" (some "d")).2.update_task 1 none (some "e")).2.get_task_by_id 1
        = some ⟨1, "A", some "e", false⟩ :=
  C5_update_frame (TaskList.init.add_task "A" (some "d")).2 1 ⟨1, "A", some "d", false⟩
    "B" "e" (by decide)

/-- Claim C6: creation with a non-empty title always succeeds: from any
reachable store it returns the task `⟨next_id, title, description, false⟩`,
stores exactly that task under the returned identifier, increments the
counter by one, and changes no other entry. -/
theorem C6_create (ops : List Op) (title : String) (d : Option String)
    (htitle : title ≠ "") :
    ((runOps TaskList.init ops).add_task title d).1
        = ⟨(runOps TaskList.init ops).next_id, title, d, false⟩ ∧
    ((runOps TaskList.init ops).add_task title d).2.get_task_by_id
        (runOps TaskList.init ops).next_id
      = some ⟨(runOps TaskList.init ops).next_id, title, d, false⟩ ∧
    ((runOps TaskList.init ops).add_task title d).2.next_id
      = (runOps TaskList.init ops).next_id + 1 ∧
    ∀ j, j ≠ (runOps TaskList.init ops).next_id →
      ((runOps TaskList.init ops).add_task title d).2.get_task_by_id j
        = (runOps TaskList.init ops).get_task_by_id j := by
  have hb := (Inv_runOps ops).1
  exact ⟨rfl, get_add_self _ hb title d, rfl, fun j hj => get_add_other _ hb title d j hj⟩

theorem C6_witness :
    ((runOps TaskList.init []).add_task "Write report" (some "finish by Friday")).2.get_task_by_id 1
      = some ⟨1, "Write report", some "finish by Friday", false⟩ :=
  (C6_create [] "Write report" (some "finish by Friday") (by decide)).2.1

/-- Claim C7: listing returns all stored tasks in creation order — their
identifiers are strictly increasing along the returned sequence, for every
store reachable by any operation sequence — the empty store lists to the
empty sequence, and listing after creating "Buy milk" and deleting it again
lists to the empty sequence.  (`get_all_tasks` is a pure function of the
store, so it cannot modify it.) -/
theorem C7_list_in_creation_order :
    TaskList.init.get_all_tasks = [] ∧
    (∀ ops : List Op,
        List.Pairwise (fun a b => a.id < b.id) ((runOps TaskList.init ops).get_all_tasks)) ∧
    (runOps TaskList.init [Op.addOp "Buy milk" none, Op.delOp 1]).get_all_tasks = [] := by
  refine ⟨rfl, ?_, by decide⟩
  intro ops
  obtain ⟨hb, hm, hs⟩ := Inv_runOps ops
  have hs' : List.Pairwise (fun p q : Nat × Task => p.1 < q.1)
      (runOps TaskList.init ops).tasks := List.pairwise_map.mp hs
  show List.Pairwise _ ((runOps TaskList.init ops).tasks.map Prod.snd)
  rw [List.pairwise_map]
  exact hs'.imp_of_mem fun hp hq hlt => by
    rw [hm _ hp, hm _ hq]; exact hlt

/-- Claim C8: `TaskList.update_task` can never change a stored description
from present to absent: whatever arguments are passed, a task whose
description was `some`- before the call still has a `some`- description
after it (a `none` description argument means leave-unchanged, and a
provided description is stored as `some`). -/
theorem C8_no_clear_path (st : TaskList) (i j : Nat) (t t' : Task)
    (a b : Option String)
    (hget : st.get_task_by_id j = some t) (hd : t.description ≠ none)
    (hafter : (st.update_task i a b).2.get_task_by_id j = some t') :
    t'.description ≠ none := by
  by_cases hji : j = i
  · subst hji
    rw [update_task_get_eq st j t a b hget] at hafter
    obtain rfl : applyUpd a b t = t' := Option.some.inj hafter
    rw [applyUpd_description]
    cases b with
    | none => simpa using hd
    | some s => simp
  · rw [update_task_get_ne st i j a b hji, hget] at hafter
    obtain rfl : t = t' := Option.some.inj hafter
    exact hd

theorem C8_witness :
    (⟨1, "B", some "d", false⟩ : Task).description ≠ none :=
  C8_no_clear_path (TaskList.init.add_task "A" (some "d")).2 1 1
    ⟨1, "A", some "d", false⟩ ⟨1, "B", some "d", false⟩ (some "B") none
    (by decide) (by decide) (by decide)

/-- Claim C9: `TaskList.add_task` itself validates nothing: for every title
string, the empty string included, it stores the new task and increments
the counter; the non-empty check lives only in the Add handler, which on a
blank title leaves the store untouched and otherwise passes the stripped
inputs through to `add_task`. -/
theorem C9_add_task_no_validation :
    (∀ ops : List Op, ∀ title : String, ∀ d : Option String,
        ((runOps TaskList.init ops).add_task title d).2.get_task_by_id
            (runOps TaskList.init ops).next_id
          = some ⟨(runOps TaskList.init ops).next_id, title, d, false⟩ ∧
        ((runOps TaskList.init ops).add_task title d).2.next_id
          = (runOps TaskList.init ops).next_id + 1) ∧
    (∀ st : TaskList, ∀ titleInput descInput : String,
        pyStrip titleInput = "" → add_task_handler st titleInput descInput = st) ∧
    (∀ st : TaskList, ∀ titleInput descInput : String,
        pyStrip titleInput ≠ "" →
          add_task_handler st titleInput descInput
            = (st.add_task (pyStrip titleInput)
                (if pyStrip descInput = "" then none
                 else some (pyStrip descInput))).2) := by
  refine ⟨fun ops title d => ⟨get_add_self _ (Inv_runOps ops).1 title d, rfl⟩, ?_, ?_⟩
  · intro st ti di h
    simp [add_task_handler, h]
  · intro st ti di h
    simp [add_task_handler, h]

theorem C9_witness :
    (((runOps TaskList.init []).add_task "" none).2.get_task_by_id 1
        = some ⟨1, "", none, false⟩ ∧
      ((runOps TaskList.init []).add_task "" none).2.next_id = 2) ∧
    add_task_handler TaskList.init "   " "d" = TaskList.init ∧
    add_task_handler TaskList.init " T " " d " = (TaskList.init.add_task "T" (some "d")).2 := by
  refine ⟨C9_add_task_no_validation.1 [] "" none, ?_, ?_⟩
  · exact C9_add_task_no_validation.2.1 TaskList.init "   " "d" (by decide)
  · have h := C9_add_task_no_validation.2.2 TaskList.init " T " " d " (by decide)
    rw [h]
    decide

/-- Claim C10: for a task present in the store, `update_task` with both
fields absent (`None`) returns `True` and leaves the whole store — title,
description and completion flag of every task, and the counter — exactly
as it was: the success result only certifies that the identifier exists. -/
theorem C10_update_none_none (st : TaskList) (i : Nat) (t : Task)
    (h : st.get_task_by_id i = some t) :
    st.update_task i none none = (true, st) := by
  have hc := contains_of_get st i t h
  unfold TaskList.update_task
  rw [if_pos hc]
  rw [map_eq_self fun p _ => by unfold touchAt applyUpd; split <;> rfl]

theorem C10_witness :
    (TaskList.init.add_task "A" (some "d")).2.update_task 1 none none
      = (true, (TaskList.init.add_task "A" (some "d")).2) :=
  C10_update_none_none (TaskList.init.add_task "A" (some "d")).2 1
    ⟨1, "A", some "d", false⟩ (by decide)

end TodoApp
